import Mathlib

/-!
Shallow embedding of `src/benchmark.py`, a tokens-per-second benchmark for
OpenAI-compatible servers.  JSON values parsed by `json.loads` are modelled by
the inductive `JVal`; Python floats used for timing are modelled by `ℚ`;
Python exceptions that the source catches are folded into the definitions,
while uncaught exceptions are modelled as `Option.none` results.
-/

/-- A JSON value as produced by Python's `json.loads`: objects become dicts
(association lists here, later duplicate keys override earlier ones), arrays
become lists, and scalars map to the corresponding constructors. -/
inductive JVal where
  | null : JVal
  | bool : Bool → JVal
  | num : ℚ → JVal
  | str : String → JVal
  | arr : List JVal → JVal
  | obj : List (String × JVal) → JVal

/-- Python truthiness of a value coming from JSON: `None`, `False`, `0`,
`""`, `[]` and `{}` are falsy, everything else is truthy. -/
def truthy : JVal → Bool
  | JVal.null => false
  | JVal.bool b => b
  | JVal.num q => q ≠ 0
  | JVal.str s => s ≠ ""
  | JVal.arr xs => !xs.isEmpty
  | JVal.obj fs => !fs.isEmpty

/-- Dictionary lookup, `d.get(key)` / `key in d`.  `json.loads` builds a dict
where a duplicate key keeps the last occurrence, so lookup prefers later
entries. -/
def jget : List (String × JVal) → String → Option JVal
  | [], _ => none
  | (k, v) :: rest, key =>
    match jget rest key with
    | some w => some w
    | none => if k = key then some v else none

/-- `pat.isPrefixOf`-style check on raw character lists (used to model
Python's substring membership `pat in s`). -/
def listPrefixOf : List Char → List Char → Bool
  | [], _ => true
  | _ :: _, [] => false
  | a :: as, b :: bs => a = b && listPrefixOf as bs

/-- Python substring membership `pat in s` for strings. -/
def strHasSub (pat : String) : List Char → Bool
  | [] => listPrefixOf pat.data []
  | c :: rest => listPrefixOf pat.data (c :: rest) || strHasSub pat rest

/-!
### Token counter (`token_count`, lines 26-42)

`tiktoken` is an optional external library; it is modelled by an environment
record: `available` is the `TIKTOKEN_AVAILABLE` flag, and the two resolvers
return `none` exactly when the corresponding Python call raises.  An encoder
itself is a function `String → Option Nat`: `some n` models
`len(enc.encode(text)) = n`, `none` models `enc.encode` raising.
-/

/-- Environment capability record for the optional `tiktoken` dependency. -/
structure TokenizerEnv where
  available : Bool
  encodingForModel : String → Option (String → Option Nat)
  getEncoding : Option (String → Option Nat)

/-- A character matched by the regex class `\w` (alphanumeric or underscore;
the ASCII reading of the class used by the heuristic). -/
def isWordChar (c : Char) : Bool := c.isAlphanum || c = '_'

/-- A whitespace character, regex class `\s`. -/
def isSpaceChar (c : Char) : Bool := c.isWhitespace

/-- Left-to-right scan of `re.findall(r"\w+|[^\s\w]", text)` counting matches.
The flag records whether the previous character extended a `\w+` match, in
which case a word character continues that match instead of starting a new
one (maximal munch); whitespace matches nothing; any other character is a
single-character match. -/
def heurAux : Bool → List Char → Nat
  | _, [] => 0
  | inWord, c :: rest =>
    if isWordChar c then (if inWord then 0 else 1) + heurAux true rest
    else if isSpaceChar c then heurAux false rest
    else 1 + heurAux false rest

/-- The heuristic fallback of `token_count` (line 41-42):
`len(re.findall(r"\w+|[^\s\w]", text))`. -/
def heuristicTokenCount (s : String) : Nat := heurAux false s.data

/-- `token_count(text, model)` (lines 26-42).  The nested `try` blocks are
reflected in the `Option` plumbing: a failing `encoding_for_model` falls back
to `get_encoding("cl100k_base")`; if that also fails (or encoding itself
raises) the heuristic count is used.  A falsy `model` string behaves like no
model (Python `if model`). -/
def token_count (env : TokenizerEnv) (text : String) (model : Option String) : Nat :=
  if text = "" then 0
  else if env.available then
    let attempt1 : Option (String → Option Nat) :=
      match model with
      | some m => if m = "" then env.getEncoding else env.encodingForModel m
      | none => env.getEncoding
    let enc : Option (String → Option Nat) :=
      match attempt1 with
      | some e => some e
      | none => env.getEncoding
    match enc with
    | some e =>
      match e text with
      | some n => n
      | none => heuristicTokenCount text
    | none => heuristicTokenCount text
  else heuristicTokenCount text

/-!
### Spec-side description of the heuristic

Declared from the spec's words ("the count of maximal alphanumeric/underscore
runs plus individual non-alphanumeric-non-whitespace characters"), to be
compared against the scan `heurAux` above.
-/

/-- Whether an optional preceding character is a word character (no
predecessor counts as a non-word predecessor). -/
def prevWord : Option Char → Bool
  | some p => isWordChar p
  | none => false

/-- Spec-side: the number of maximal `\w`-runs equals the number of word
characters whose preceding character (tracked as `prev`) is not a word
character. -/
def runStarts : Option Char → List Char → Nat
  | _, [] => 0
  | prev, c :: rest =>
    (if isWordChar c && !prevWord prev then 1 else 0) + runStarts (some c) rest

/-- Spec-side: the number of individual non-whitespace, non-word characters. -/
def punctCount (l : List Char) : Nat :=
  (l.filter (fun c => !isWordChar c && !isSpaceChar c)).length

/-!
### Stream consumer (`run_streaming`, lines 84-153)

Each line delivered by `r.iter_lines` is modelled as a `LineEvent`: the raw
line text, the result of `json.loads` on the derived payload (`none` when
parsing raises), and the value `time.time()` returns while this line is being
processed (within one loop iteration the clock is read at most once).
-/

/-- One line of the event stream together with its environment: the
`json.loads` outcome on its payload and the clock value during its
processing. -/
structure LineEvent where
  raw : String
  parsed : Option JVal
  time : ℚ

/-- The loop state of `run_streaming`: `first_token_time`, `last_token_time`
and the `chunks` accumulator. -/
structure SState where
  first : Option ℚ
  last : Option ℚ
  chunks : List JVal

/-- The state before the loop: both timestamps `None`, empty accumulator. -/
def initState : SState := ⟨none, none, []⟩

/-- Python's `str.strip()`: remove leading and trailing whitespace. -/
def pyStrip (s : String) : String :=
  String.mk (((s.data.dropWhile isSpaceChar).reverse.dropWhile isSpaceChar).reverse)

/-- Lines 100-103: strip the line, remove a leading `data:` marker
(`line[len("data:"):]`) and strip again to obtain the payload. -/
def payloadText (raw : String) : String :=
  let line := pyStrip raw
  if listPrefixOf ("data:".data) line.data
  then pyStrip (String.mk (line.data.drop 5)) else line

/-- Lines 121-134: extract the incremental fragment from a parsed stream
object.  `text_piece` starts as `""`; `choices = obj.get("choices") or []`;
a first choice carrying a dict `delta` yields `delta.get("content", "")`,
otherwise a `text` key yields its value.  Every exception in this block
(non-dict `obj`, non-indexable `choices`, non-dict first choice, ...) is
caught by the surrounding `try`, leaving `text_piece` as `""`; a truthy
non-list `choices` value also always ends with `""` (its single-character
index either fails or matches neither membership test), so it is folded into
the empty-choices case. -/
def extractPiece (obj : JVal) : JVal :=
  match obj with
  | JVal.obj fields =>
    let choices : List JVal :=
      match jget fields "choices" with
      | some (JVal.arr xs) => if xs.isEmpty then [] else xs
      | _ => []
    match choices with
    | [] => JVal.str ""
    | ch :: _ =>
      match ch with
      | JVal.obj cf =>
        match jget cf "delta" with
        | some (JVal.obj deltaf) => (jget deltaf "content").getD (JVal.str "")
        | some _ =>
          match jget cf "text" with
          | some t => t
          | none => JVal.str ""
        | none =>
          match jget cf "text" with
          | some t => t
          | none => JVal.str ""
      | _ => JVal.str ""
  | _ => JVal.str ""

/-- The streaming loop (lines 93-141): skip blank lines, terminate on the
`[DONE]` sentinel recording `last_token_time`, pass non-JSON payloads through
verbatim, and append truthy extracted fragments while maintaining the two
timestamps. -/
def consumeLines : SState → List LineEvent → SState
  | st, [] => st
  | st, e :: rest =>
    if pyStrip e.raw = "" then consumeLines st rest
    else if payloadText e.raw = "[DONE]" then { st with last := some e.time }
    else
      match e.parsed with
      | none =>
        if payloadText e.raw = "" then consumeLines st rest
        else
          consumeLines
            ⟨match st.first with | none => some e.time | some f => some f,
             some e.time,
             st.chunks ++ [JVal.str (payloadText e.raw)]⟩ rest
      | some obj =>
        if truthy (extractPiece obj) then
          consumeLines
            ⟨match st.first with | none => some e.time | some f => some f,
             some e.time,
             st.chunks ++ [extractPiece obj]⟩ rest
        else consumeLines st rest

/-- Line 144: `elapsed = (last - first) if (first and last) else 0.0`.
Python evaluates the condition by truthiness, so a timestamp equal to `0.0`
counts as absent. -/
def elapsedOf (st : SState) : ℚ :=
  match st.first, st.last with
  | some f, some l => if f ≠ 0 ∧ l ≠ 0 then l - f else 0
  | _, _ => 0

/-- Line 143: `"".join(chunks)`.  Joining raises `TypeError` (modelled as
`none`) if any accumulated element is not a string. -/
def joinChunks : List JVal → Option String
  | [] => some ""
  | JVal.str s :: rest => (joinChunks rest).map (fun t => s ++ t)
  | _ => none

/-- A throughput value: either a finite rational or the float `inf`. -/
inductive TPS where
  | val : ℚ → TPS
  | inf : TPS

/-- Lines 74 and 146: `tps = tokens / elapsed if elapsed > 0 else
float("inf")`. -/
def tpsOfQ (tokens elapsed : ℚ) : TPS :=
  if 0 < elapsed then TPS.val (tokens / elapsed) else TPS.inf

/-- The record printed by `run_streaming` (lines 148-153), with the full text
kept alongside (rounding for display is out of scope). -/
structure Report where
  fullText : String
  tokens : Nat
  elapsed : ℚ
  tps : TPS

/-- `run_streaming` after the transport succeeded (lines 93-153): consume the
lines, join the accumulator, count tokens over the joined text and build the
report.  `none` models the uncaught `TypeError` of joining a non-string
fragment. -/
def run_streaming (env : TokenizerEnv) (model : Option String)
    (events : List LineEvent) : Option Report :=
  let st := consumeLines initState events
  (joinChunks st.chunks).map fun full =>
    let elapsed := elapsedOf st
    let n := token_count env full model
    ⟨full, n, elapsed, tpsOfQ (n : ℚ) elapsed⟩

/-!
### Non-streaming path (`run_non_streaming`, lines 49-81)

Unlike the streaming loop, nothing here is wrapped in `try`, so any raised
exception aborts the run; aborts are modelled as `none`.
-/

/-- Python's membership test `needle in v` for a string needle: key lookup on
dicts, substring on strings, element equality on lists; `TypeError` (`none`)
on anything non-iterable. -/
def pyIn (needle : String) : JVal → Option Bool
  | JVal.obj fs => some (jget fs needle).isSome
  | JVal.str s => some (strHasSub needle s.data)
  | JVal.arr xs =>
    some (xs.any fun x => match x with | JVal.str t => t = needle | _ => false)
  | _ => none

/-- Python's string-key subscription `v[k]`: succeeds only on a dict holding
the key; `TypeError`/`KeyError` (`none`) otherwise. -/
def pyIndex (v : JVal) (k : String) : Option JVal :=
  match v with
  | JVal.obj fs => jget fs k
  | _ => none

/-- Lines 57-67: `text = ""`, then if `data.get("choices")` is truthy take
`choices[0]` (a truthy string indexes to its first character; any other
non-list raises) and run
`if "message" in choice and "content" in choice["message"]: ... elif "text"
in choice: ...`, with every raised exception propagating (`none`). -/
def extractTextNS (fields : List (String × JVal)) : Option JVal := do
  let choicesVal := (jget fields "choices").getD JVal.null
  if truthy choicesVal then
    let choice ← (match choicesVal with
      | JVal.arr xs => xs.head?
      | JVal.str s => (s.data.head?).map (fun c => JVal.str (String.mk [c]))
      | _ => none)
    let mIn ← pyIn "message" choice
    if mIn then
      let mv ← pyIndex choice "message"
      let cIn ← pyIn "content" mv
      if cIn then pyIndex mv "content"
      else
        let tIn ← pyIn "text" choice
        if tIn then pyIndex choice "text" else pure (JVal.str "")
    else
      let tIn ← pyIn "text" choice
      if tIn then pyIndex choice "text" else pure (JVal.str "")
  else pure (JVal.str "")

/-- Lines 68-71: `usage_tokens`, which stays `None` unless `data["usage"]` is
a dict carrying a non-null `total_tokens` (a JSON `null` value becomes Python
`None`, indistinguishable from an absent key for the later
`is not None` test). -/
def usageTokensOf (fields : List (String × JVal)) : Option JVal :=
  match jget fields "usage" with
  | some (JVal.obj uf) =>
    match jget uf "total_tokens" with
    | some JVal.null => none
    | some v => some v
    | none => none
  | _ => none

/-- `token_count` applied to the extracted text object (line 73): a falsy
value returns `0` straight away (`if not text`), a truthy string is counted,
and a truthy non-string raises inside `re.findall` / `enc.encode` with no
handler left (`none`). -/
def token_countJ (env : TokenizerEnv) (v : JVal) (model : Option String) : Option Nat :=
  if truthy v then
    match v with
    | JVal.str s => some (token_count env s model)
    | _ => none
  else some 0

/-- Lines 56-73 of `run_non_streaming`: the value bound to `num_tokens`.
For a non-dict body the `isinstance` branch never runs, so line 73 reads the
never-assigned local `usage_tokens` and raises `UnboundLocalError` (`none`).
Otherwise text extraction runs first (and may raise), then server-reported
usage takes precedence over the computed count. -/
def runNonStreamTokens (env : TokenizerEnv) (data : JVal)
    (model : Option String) : Option JVal :=
  match data with
  | JVal.obj fields =>
    (extractTextNS fields).bind fun text =>
      match usageTokensOf fields with
      | some v => some v
      | none => (token_countJ env text model).map (fun n => JVal.num (n : ℚ))
  | _ => none

/-- The numeric reading of `num_tokens` used by the division on line 74
(Python treats `True`/`False` as `1`/`0`; any non-numeric value raises). -/
def pyNumQ : JVal → Option ℚ
  | JVal.num q => some q
  | JVal.bool b => some (if b then 1 else 0)
  | _ => none

/-- The record printed by `run_non_streaming` (lines 76-81). -/
structure NSReport where
  tokens : JVal
  elapsed : ℚ
  tps : TPS

/-- `run_non_streaming` after the transport succeeded (lines 50-81), with the
measured wall-clock `elapsed` supplied by the environment.  The conditional
expression on line 74 only evaluates the division when `elapsed > 0`, so a
non-numeric `num_tokens` raises exactly in that case. -/
def run_non_streaming (env : TokenizerEnv) (data : JVal) (model : Option String)
    (elapsed : ℚ) : Option NSReport :=
  (runNonStreamTokens env data model).bind fun tv =>
    match pyNumQ tv with
    | some q => some ⟨tv, elapsed, tpsOfQ q elapsed⟩
    | none => if 0 < elapsed then none else some ⟨tv, elapsed, TPS.inf⟩

/-!
### Spec-side per-line fragment view of the stream

Used to state the round-trip claim: the fragment a single line contributes,
and the prefix of lines the loop actually processes (everything before the
first `[DONE]` sentinel).
-/

/-- The fragment one stream line appends to the accumulator, as a pure
per-line function: `none` when the line is blank, a sentinel, an empty
unparsed payload, or a falsy extracted piece. -/
def lineFragment (e : LineEvent) : Option JVal :=
  if pyStrip e.raw = "" then none
  else if payloadText e.raw = "[DONE]" then none
  else
    match e.parsed with
    | none =>
      if payloadText e.raw = "" then none else some (JVal.str (payloadText e.raw))
    | some obj =>
      if truthy (extractPiece obj) then some (extractPiece obj) else none

/-- The prefix of the event list the loop processes: everything before the
first non-blank line whose payload is the `[DONE]` sentinel. -/
def takeUntilDone : List LineEvent → List LineEvent
  | [] => []
  | e :: rest =>
    if pyStrip e.raw ≠ "" ∧ payloadText e.raw = "[DONE]" then []
    else e :: takeUntilDone rest

/-- A chat-schema stream payload `{"choices":[{"delta":{"content":s}}]}`. -/
def chatJson (s : String) : JVal :=
  JVal.obj [("choices", JVal.arr [JVal.obj [("delta", JVal.obj [("content", JVal.str s)])]])]

/-- A completion-schema stream payload `{"choices":[{"text":s}]}`. -/
def complJson (s : String) : JVal :=
  JVal.obj [("choices", JVal.arr [JVal.obj [("text", JVal.str s)]])]

/-!
### Helper lemmas
-/

/-- The regex scan agrees with run-start counting plus punctuation counting,
for every assumption about the preceding character. -/
lemma heurAux_runStarts (l : List Char) : ∀ prev : Option Char,
    heurAux (prevWord prev) l = runStarts prev l + punctCount l := by
  induction l with
  | nil => intro prev; simp [heurAux, runStarts, punctCount]
  | cons c rest ih =>
    intro prev
    have ihc := ih (some c)
    by_cases hw : isWordChar c
    · have hpc : prevWord (some c) = true := hw
      rw [hpc] at ihc
      cases hp : prevWord prev <;>
        simp [heurAux, runStarts, punctCount, hw, hp, ihc, List.filter_cons] <;> omega
    · have hpc : prevWord (some c) = false := by simp [prevWord, hw]
      rw [hpc] at ihc
      by_cases hs : isSpaceChar c <;>
        simp [heurAux, runStarts, punctCount, hw, hs, ihc, List.filter_cons] <;> omega

/-- A list containing a non-whitespace character is scanned to at least one
token. -/
lemma heurAux_pos : ∀ l : List Char, (∃ c ∈ l, isSpaceChar c = false) →
    1 ≤ heurAux false l := by
  intro l
  induction l with
  | nil => rintro ⟨c, hc, -⟩; exact absurd hc (List.not_mem_nil c)
  | cons c rest ih =>
    rintro ⟨d, hd, hds⟩
    by_cases hw : isWordChar c
    · simp [heurAux, hw]
    · by_cases hs : isSpaceChar c
      · have hdr : d ∈ rest := by
          rcases List.mem_cons.mp hd with rfl | h
          · rw [hs] at hds; cases hds
          · exact h
        simpa [heurAux, hw, hs] using ih ⟨d, hdr, hds⟩
      · simp [heurAux, hw, hs]

/-- Updating `first_token_time` only when unset preserves positivity. -/
lemma firstUpd_pos {o : Option ℚ} {t : ℚ} (ho : ∀ f, o = some f → 0 < f)
    (ht : 0 < t) :
    ∀ f, (match o with | none => some t | some f => some f) = some f → 0 < f := by
  cases o with
  | none =>
    intro f hf
    rw [Option.some.injEq] at hf
    exact hf ▸ ht
  | some g =>
    intro f hf
    rw [Option.some.injEq] at hf
    exact hf ▸ ho g rfl

/-- Both recorded timestamps of a loop state are positive. -/
def posTimesInv (st : SState) : Prop :=
  (∀ f, st.first = some f → 0 < f) ∧ (∀ l, st.last = some l → 0 < l)

/-- Step equation: a line that is blank after stripping is skipped. -/
lemma consumeLines_blank {raw : String} (par : Option JVal) (t : ℚ)
    (st : SState) (rest : List LineEvent) (h1 : pyStrip raw = "") :
    consumeLines st (⟨raw, par, t⟩ :: rest) = consumeLines st rest := by
  conv_lhs => rw [consumeLines]
  rw [if_pos h1]

/-- Step equation: the `[DONE]` sentinel records `last_token_time` and breaks
out of the loop. -/
lemma consumeLines_done {raw : String} (par : Option JVal) (t : ℚ)
    (st : SState) (rest : List LineEvent) (h1 : ¬ pyStrip raw = "")
    (h2 : payloadText raw = "[DONE]") :
    consumeLines st (⟨raw, par, t⟩ :: rest) = { st with last := some t } := by
  conv_lhs => rw [consumeLines]
  rw [if_neg h1, if_pos h2]

/-- Step equation for a line whose payload fails to parse as JSON. -/
lemma consumeLines_raw {raw : String} (t : ℚ) (st : SState)
    (rest : List LineEvent) (h1 : ¬ pyStrip raw = "")
    (h2 : ¬ payloadText raw = "[DONE]") :
    consumeLines st (⟨raw, none, t⟩ :: rest)
      = if payloadText raw = "" then consumeLines st rest
        else
          consumeLines
            ⟨match st.first with | none => some t | some f => some f,
             some t, st.chunks ++ [JVal.str (payloadText raw)]⟩ rest := by
  conv_lhs => rw [consumeLines]
  rw [if_neg h1, if_neg h2]

/-- Step equation for a line whose payload parses to `obj`. -/
lemma consumeLines_json {raw : String} (obj : JVal) (t : ℚ) (st : SState)
    (rest : List LineEvent) (h1 : ¬ pyStrip raw = "")
    (h2 : ¬ payloadText raw = "[DONE]") :
    consumeLines st (⟨raw, some obj, t⟩ :: rest)
      = if truthy (extractPiece obj)
        then
          consumeLines
            ⟨match st.first with | none => some t | some f => some f,
             some t, st.chunks ++ [extractPiece obj]⟩ rest
        else consumeLines st rest := by
  conv_lhs => rw [consumeLines]
  rw [if_neg h1, if_neg h2]

/-- The loop only ever stores clock values into the timestamps, so positive
clocks keep both timestamps positive. -/
lemma consumeLines_pos : ∀ (events : List LineEvent) (st : SState),
    (∀ e ∈ events, 0 < e.time) → posTimesInv st →
    posTimesInv (consumeLines st events) := by
  intro events
  induction events with
  | nil => intro st _ hst; exact hst
  | cons e rest ih =>
    intro st hpos hst
    have hrest : ∀ x ∈ rest, 0 < x.time := fun x hx => hpos x (List.mem_cons_of_mem e hx)
    have he : 0 < e.time := hpos e (List.mem_cons_self e rest)
    obtain ⟨raw, par, t⟩ := e
    by_cases h1 : pyStrip raw = ""
    · rw [consumeLines_blank par t st rest h1]; exact ih st hrest hst
    · by_cases h2 : payloadText raw = "[DONE]"
      · rw [consumeLines_done par t st rest h1 h2]
        refine ⟨hst.1, ?_⟩
        intro l hl
        rw [show ({st with last := some t} : SState).last = some t from rfl,
          Option.some.injEq] at hl
        exact hl ▸ he
      · cases par with
        | none =>
          rw [consumeLines_raw t st rest h1 h2]
          by_cases h3 : payloadText raw = ""
          · rw [if_pos h3]; exact ih st hrest hst
          · rw [if_neg h3]
            refine ih _ hrest ⟨firstUpd_pos hst.1 he, ?_⟩
            intro l hl
            rw [Option.some.injEq] at hl
            exact hl ▸ he
        | some obj =>
          rw [consumeLines_json obj t st rest h1 h2]
          by_cases h4 : truthy (extractPiece obj)
          · rw [if_pos h4]
            refine ih _ hrest ⟨firstUpd_pos hst.1 he, ?_⟩
            intro l hl
            rw [Option.some.injEq] at hl
            exact hl ▸ he
          · rw [if_neg h4]; exact ih st hrest hst

/-- A state with a missing timestamp has elapsed time `0`. -/
lemma elapsedOf_unset {st : SState} (h : st.first = none ∨ st.last = none) :
    elapsedOf st = 0 := by
  obtain ⟨f, l, c⟩ := st
  rcases h with h | h <;> simp only at h <;> subst h <;>
    first
    | rfl
    | (cases f <;> rfl)
    | (cases l <;> rfl)

/-- The accumulator after the loop is the initial accumulator followed by the
per-line fragments of the processed prefix, in order. -/
lemma consumeLines_chunks : ∀ (events : List LineEvent) (st : SState),
    (consumeLines st events).chunks
      = st.chunks ++ (takeUntilDone events).filterMap lineFragment := by
  intro events
  induction events with
  | nil => intro st; simp [consumeLines, takeUntilDone]
  | cons e rest ih =>
    intro st
    obtain ⟨raw, par, t⟩ := e
    by_cases h1 : pyStrip raw = ""
    · have hf : lineFragment ⟨raw, par, t⟩ = none := by simp [lineFragment, h1]
      simp [consumeLines, takeUntilDone, h1, hf, ih]
    · by_cases h2 : payloadText raw = "[DONE]"
      · simp [consumeLines, takeUntilDone, h1, h2]
      · cases par with
        | none =>
          by_cases h3 : payloadText raw = ""
          · have hf : lineFragment (⟨raw, none, t⟩ : LineEvent) = none := by
              simp [lineFragment, h1, h2, h3]
            simp [consumeLines, takeUntilDone, h1, h2, h3, hf, ih]
          · have hf : lineFragment (⟨raw, none, t⟩ : LineEvent)
                = some (JVal.str (payloadText raw)) := by
              simp [lineFragment, h1, h2, h3]
            simp [consumeLines, takeUntilDone, h1, h2, h3, hf, ih]
        | some obj =>
          by_cases h4 : truthy (extractPiece obj)
          · have hf : lineFragment (⟨raw, some obj, t⟩ : LineEvent)
                = some (extractPiece obj) := by
              simp [lineFragment, h1, h2, h4]
            simp [consumeLines, takeUntilDone, h1, h2, h4, hf, ih]
          · have hf : lineFragment (⟨raw, some obj, t⟩ : LineEvent) = none := by
              simp [lineFragment, h1, h2, h4]
            simp [consumeLines, takeUntilDone, h1, h2, h4, hf, ih]

/-!
### Claims
-/

/-- Claim C1: for every consumed stream (with clock readings positive, as
`time.time()` values are), the consumer's elapsed seconds equal the last
fragment time minus the first fragment time when both timestamps are set,
and `0` when either timestamp is unset. -/
theorem C1_elapsed_seconds (events : List LineEvent)
    (hpos : ∀ e ∈ events, 0 < e.time) :
    (∀ f l, (consumeLines initState events).first = some f →
      (consumeLines initState events).last = some l →
      elapsedOf (consumeLines initState events) = l - f)
    ∧ (((consumeLines initState events).first = none ∨
        (consumeLines initState events).last = none) →
      elapsedOf (consumeLines initState events) = 0) := by
  have hbase : posTimesInv initState := by
    constructor <;> intro x hx <;> simp [initState] at hx
  have hinv := consumeLines_pos events initState hpos hbase
  constructor
  · intro f l hf hl
    have hf0 : f ≠ 0 := (hinv.1 f hf).ne'
    have hl0 : l ≠ 0 := (hinv.2 l hl).ne'
    unfold elapsedOf
    rw [hf, hl]
    exact if_pos ⟨hf0, hl0⟩
  · exact elapsedOf_unset

/-- Witness for C1 at a concrete two-fragment stream with clock values 1
and 2. -/
theorem C1_elapsed_seconds_witness :
    elapsedOf (consumeLines initState
      [⟨"data: a", some (chatJson "Hi"), 1⟩,
       ⟨"data: b", some (chatJson "!"), 2⟩]) = 2 - 1 :=
  (C1_elapsed_seconds _
    (fun e he => by
      rcases List.mem_cons.mp he with rfl | he2
      · exact zero_lt_one
      rcases List.mem_cons.mp he2 with rfl | he3
      · exact zero_lt_two
      · exact absurd he3 (List.not_mem_nil e))).1 1 2 rfl rfl

/-- Claim C3 counterexample: the claim demands a count of at least `1` for
every non-empty text, but the whitespace-only text `" "` is non-empty and
counts to `0`. -/
theorem C3_heuristic_counterexample :
    (" " : String) ≠ "" ∧ ¬ 1 ≤ heuristicTokenCount " " := by decide

/-- Claim C3 (amended): the heuristic count equals the number of maximal
alphanumeric/underscore runs plus the number of individual non-whitespace,
non-alphanumeric characters, and it is at least `1` for every text containing
at least one non-whitespace character (rather than every non-empty text). -/
theorem C3_heuristic_amended (s : String) :
    heuristicTokenCount s = runStarts none s.data + punctCount s.data
    ∧ ((∃ c ∈ s.data, isSpaceChar c = false) → 1 ≤ heuristicTokenCount s) :=
  ⟨heurAux_runStarts s.data none, heurAux_pos s.data⟩

/-- Witness for the amended C3 at the concrete text `"ab,"`. -/
theorem C3_heuristic_amended_witness :
    heuristicTokenCount "ab," = runStarts none ("ab,").data + punctCount ("ab,").data
    ∧ 1 ≤ heuristicTokenCount "ab," :=
  ⟨(C3_heuristic_amended "ab,").1,
   (C3_heuristic_amended "ab,").2 ⟨'a', by decide, by decide⟩⟩

/-- Claim C9: the token counter is total (an integer `≥ 0` in every
environment); with the tokenizer capability absent it returns the heuristic
count; a failing model-specific resolution behaves exactly like the
default-encoding path (`cl100k_base` fallback); and a raising encoder or a
doubly-failing default resolution also return the heuristic count. -/
theorem C9_token_count_fallbacks (env : TokenizerEnv) (text : String)
    (mo : Option String) (m : String)
    (efm efm2 : String → Option (String → Option Nat))
    (genc : Option (String → Option Nat)) :
    0 ≤ token_count env text mo
    ∧ token_count ⟨false, efm, genc⟩ text mo = heuristicTokenCount text
    ∧ token_count ⟨true, fun _ => none, genc⟩ text (some m)
        = token_count ⟨true, efm2, genc⟩ text none
    ∧ token_count ⟨true, efm, some fun _ => none⟩ text none
        = heuristicTokenCount text
    ∧ token_count ⟨true, efm, none⟩ text none = heuristicTokenCount text := by
  refine ⟨Nat.zero_le _, ?_, ?_, ?_, ?_⟩
  · by_cases h : text = "" <;> simp [token_count, h, heuristicTokenCount, heurAux]
  · by_cases h : text = ""
    · simp [token_count, h]
    · by_cases hm : m = "" <;> cases genc <;> simp [token_count, h, hm]
  · by_cases h : text = "" <;>
      simp [token_count, h, heuristicTokenCount, heurAux]
  · by_cases h : text = "" <;>
      simp [token_count, h, heuristicTokenCount, heurAux]

/-- Claim C10: for a well-formed response whose JSON body is not an object
(for instance a top-level array), the token computation of
`run_non_streaming` aborts with the unbound-local read of `usage_tokens` on
line 73 (modelled as `none`) instead of degrading to a computed count. -/
theorem C10_nondict_unbound_local (env : TokenizerEnv) (mo : Option String)
    (xs : List JVal) :
    runNonStreamTokens env (JVal.arr xs) mo = none
    ∧ run_non_streaming env (JVal.arr xs) mo 1 = none := ⟨rfl, rfl⟩

/-- Claim C5: a completion-schema payload `{"choices":[{"text":s}]}` extracts
to the same fragment as a chat-schema payload
`{"choices":[{"delta":{"content":s}}]}`, and a stream line carrying either
payload leaves the consumer in the same state, hence the same accumulated
text. -/
theorem C5_schema_equivalence (s raw : String) (t : ℚ) (st : SState) :
    extractPiece (complJson s) = extractPiece (chatJson s)
    ∧ consumeLines st [⟨raw, some (complJson s), t⟩]
        = consumeLines st [⟨raw, some (chatJson s), t⟩] := by
  have hext : extractPiece (complJson s) = extractPiece (chatJson s) := rfl
  refine ⟨hext, ?_⟩
  by_cases h1 : pyStrip raw = ""
  · rw [consumeLines_blank _ t st [] h1, consumeLines_blank _ t st [] h1]
  · by_cases h2 : payloadText raw = "[DONE]"
    · rw [consumeLines_done _ t st [] h1 h2, consumeLines_done _ t st [] h1 h2]
    · rw [consumeLines_json _ t st [] h1 h2, consumeLines_json _ t st [] h1 h2, hext]

/-- Claim C6 counterexample: the line `"data:"` has the empty payload, which
fails to parse as JSON, yet the consumer neither updates the timestamps nor
appends anything (the claim asserts both happen for every unparsable
payload). -/
theorem C6_passthrough_counterexample :
    (consumeLines initState [⟨"data:", none, 3⟩]).last = none
    ∧ (consumeLines initState [⟨"data:", none, 3⟩]).chunks = [] := ⟨rfl, rfl⟩

/-- Claim C6 (amended): for every stream line whose payload is non-empty and
fails to parse as JSON, the consumer never aborts — it continues with the
remaining lines after appending the raw payload verbatim, setting
`first_token_time` if unset and updating `last_token_time` — and the raw
payload appears verbatim in the accumulated chunks. -/
theorem C6_nonjson_passthrough (raw : String) (t : ℚ) (st : SState)
    (rest : List LineEvent) (h1 : pyStrip raw ≠ "")
    (h2 : payloadText raw ≠ "[DONE]") (h3 : payloadText raw ≠ "") :
    consumeLines st (⟨raw, none, t⟩ :: rest)
      = consumeLines
          ⟨match st.first with | none => some t | some f => some f,
           some t, st.chunks ++ [JVal.str (payloadText raw)]⟩ rest
    ∧ JVal.str (payloadText raw) ∈ (consumeLines st (⟨raw, none, t⟩ :: rest)).chunks := by
  have hstep := consumeLines_raw t st rest h1 h2
  rw [if_neg h3] at hstep
  refine ⟨hstep, ?_⟩
  rw [hstep, consumeLines_chunks]
  simp

/-- Witness for C6 at the non-JSON heartbeat line from the spec's example. -/
theorem C6_nonjson_passthrough_witness :
    consumeLines initState [⟨"heartbeat", none, 1⟩]
      = consumeLines ⟨some 1, some 1, [JVal.str (payloadText "heartbeat")]⟩ []
    ∧ JVal.str (payloadText "heartbeat")
        ∈ (consumeLines initState [⟨"heartbeat", none, 1⟩]).chunks :=
  C6_nonjson_passthrough "heartbeat" 1 initState [] (by decide) (by decide) (by decide)

/-- Claim C7: a successfully parsed line whose first choice yields an empty
fragment changes nothing — the consumer state (accumulator and both
timestamps) is exactly what it would be without the line; a delta object
with no `content` key and a choice with neither `delta` nor `text` are two
such shapes. -/
theorem C7_empty_fragment_frame (raw : String) (obj : JVal) (t : ℚ)
    (st : SState) (rest : List LineEvent) (deltaf cf : List (String × JVal))
    (h1 : pyStrip raw ≠ "") (h2 : payloadText raw ≠ "[DONE]")
    (h3 : extractPiece obj = JVal.str "")
    (h4 : jget deltaf "content" = none)
    (h5 : jget cf "delta" = none) (h6 : jget cf "text" = none) :
    consumeLines st (⟨raw, some obj, t⟩ :: rest) = consumeLines st rest
    ∧ extractPiece (JVal.obj [("choices",
        JVal.arr [JVal.obj [("delta", JVal.obj deltaf)]])]) = JVal.str ""
    ∧ extractPiece (JVal.obj [("choices", JVal.arr [JVal.obj cf])]) = JVal.str "" := by
  refine ⟨?_, ?_, ?_⟩
  · rw [consumeLines_json obj t st rest h1 h2, h3]
    rw [if_neg (by simp [truthy])]
  · simp [extractPiece, jget, h4]
  · simp [extractPiece, jget, h5, h6]

/-- Witness for C7 at a concrete empty-delta line. -/
theorem C7_empty_fragment_frame_witness :
    consumeLines initState
        [⟨"data: x",
          some (JVal.obj [("choices", JVal.arr [JVal.obj [("delta", JVal.obj [])]])]),
          1⟩]
      = consumeLines initState []
    ∧ extractPiece (JVal.obj [("choices",
        JVal.arr [JVal.obj [("delta", JVal.obj [])]])]) = JVal.str ""
    ∧ extractPiece (JVal.obj [("choices", JVal.arr [JVal.obj []])]) = JVal.str "" :=
  C7_empty_fragment_frame "data: x"
    (JVal.obj [("choices", JVal.arr [JVal.obj [("delta", JVal.obj [])]])])
    1 initState [] [] [] (by decide) (by decide) rfl rfl rfl rfl

/-- Claim C8: in non-streaming mode, whenever the response object carries a
non-null `usage.total_tokens`, the reported token value is exactly that
server value — the local token counter is never consulted (the result is
independent of the tokenizer environment) — as on the spec's example
response, which reports `7`. -/
theorem C8_usage_precedence (fields uf : List (String × JVal)) (u : JVal)
    (envA envB : TokenizerEnv) (mo : Option String)
    (h1 : jget fields "usage" = some (JVal.obj uf))
    (h2 : jget uf "total_tokens" = some u) (h3 : u ≠ JVal.null) :
    runNonStreamTokens envA (JVal.obj fields) mo
      = runNonStreamTokens envB (JVal.obj fields) mo
    ∧ (∀ v, runNonStreamTokens envA (JVal.obj fields) mo = some v → v = u)
    ∧ runNonStreamTokens envA (JVal.obj
        [("choices", JVal.arr [JVal.obj [("message", JVal.obj [("content", JVal.str "hi")])]]),
         ("usage", JVal.obj [("total_tokens", JVal.num 7)])]) mo
      = some (JVal.num 7) := by
  have husage : usageTokensOf fields = some u := by
    cases u <;> simp_all [usageTokensOf, h1, h2]
  have hrun : ∀ env : TokenizerEnv, runNonStreamTokens env (JVal.obj fields) mo
      = (extractTextNS fields).map (fun _ => u) := by
    intro env
    cases hext : extractTextNS fields with
    | none => simp [runNonStreamTokens, hext]
    | some a => simp [runNonStreamTokens, hext, husage]
  refine ⟨by rw [hrun envA, hrun envB], ?_, rfl⟩
  intro v hv
  rw [hrun envA] at hv
  cases hext : extractTextNS fields <;> rw [hext] at hv
  · cases hv
  · injection hv with h
    exact h.symm

/-- Witness for C8 at the spec's example response. -/
theorem C8_usage_precedence_witness :
    runNonStreamTokens ⟨false, fun _ => none, none⟩ (JVal.obj
        [("choices", JVal.arr [JVal.obj [("message", JVal.obj [("content", JVal.str "hi")])]]),
         ("usage", JVal.obj [("total_tokens", JVal.num 7)])]) none
      = some (JVal.num 7) :=
  (C8_usage_precedence
    [("choices", JVal.arr [JVal.obj [("message", JVal.obj [("content", JVal.str "hi")])]]),
     ("usage", JVal.obj [("total_tokens", JVal.num 7)])]
    [("total_tokens", JVal.num 7)] (JVal.num 7)
    ⟨false, fun _ => none, none⟩ ⟨false, fun _ => none, none⟩ none
    rfl rfl (fun h => nomatch h)).2.2

/-- Claim C4: the accumulator equals the arrival-ordered per-line fragments
of the processed prefix (no reordering or loss), and whenever the consumer
produces a report, its full text is the join of exactly those fragments and
its token count is the token counter applied to that very string. -/
theorem C4_roundtrip (env : TokenizerEnv) (mo : Option String)
    (events : List LineEvent) :
    (consumeLines initState events).chunks
      = (takeUntilDone events).filterMap lineFragment
    ∧ ∀ rep, run_streaming env mo events = some rep →
        joinChunks ((takeUntilDone events).filterMap lineFragment)
          = some rep.fullText
        ∧ rep.tokens = token_count env rep.fullText mo := by
  have hch : (consumeLines initState events).chunks
      = (takeUntilDone events).filterMap lineFragment := by
    rw [consumeLines_chunks]
    simp [initState]
  refine ⟨hch, ?_⟩
  intro rep hrep
  rw [← hch]
  simp only [run_streaming] at hrep
  cases hj : joinChunks (consumeLines initState events).chunks with
  | none => rw [hj] at hrep; cases hrep
  | some full =>
    rw [hj] at hrep
    injection hrep with h
    subst h
    exact ⟨rfl, rfl⟩

/-- Witness for C4 at a concrete two-fragment stream. -/
theorem C4_roundtrip_witness :
    joinChunks ((takeUntilDone
        [⟨"data: a", some (chatJson "Hello"), 1⟩,
         ⟨"data: b", some (chatJson " world"), 2⟩,
         ⟨"data: [DONE]", none, 3⟩]).filterMap lineFragment) = some "Hello world"
    ∧ (⟨"Hello world", 2, elapsedOf ⟨some 1, some 3, []⟩,
        tpsOfQ ((2 : ℕ) : ℚ) (elapsedOf ⟨some 1, some 3, []⟩)⟩ : Report).tokens
      = token_count ⟨false, fun _ => none, none⟩ "Hello world" none :=
  (C4_roundtrip ⟨false, fun _ => none, none⟩ none
    [⟨"data: a", some (chatJson "Hello"), 1⟩,
     ⟨"data: b", some (chatJson " world"), 2⟩,
     ⟨"data: [DONE]", none, 3⟩]).2
    ⟨"Hello world", 2, elapsedOf ⟨some 1, some 3, []⟩,
     tpsOfQ ((2 : ℕ) : ℚ) (elapsedOf ⟨some 1, some 3, []⟩)⟩
    rfl

/-- Claim C2: in both modes the reported throughput is `tokens / elapsed`
when `elapsed > 0` and positive infinity when `elapsed = 0`; in particular a
single-fragment stream followed by `[DONE]` at the same clock value yields
elapsed `0` and infinite throughput. -/
theorem C2_tokens_per_second (env : TokenizerEnv) (mo : Option String)
    (events : List LineEvent) (data : JVal) (tk e1 e2 t : ℚ)
    (h1 : 0 < e1) (h2 : e2 = 0) (h3 : 0 < t) :
    tpsOfQ tk e1 = TPS.val (tk / e1)
    ∧ tpsOfQ tk e2 = TPS.inf
    ∧ (∀ rep, run_streaming env mo events = some rep →
        rep.tps = tpsOfQ (rep.tokens : ℚ) rep.elapsed)
    ∧ (∀ rep q, run_non_streaming env data mo e1 = some rep →
        pyNumQ rep.tokens = some q → rep.tps = tpsOfQ q e1)
    ∧ (run_streaming env mo
        [⟨"data: x", some (chatJson "Hello"), t⟩,
         ⟨"data: [DONE]", none, t⟩]).map Report.elapsed = some 0
    ∧ (run_streaming env mo
        [⟨"data: x", some (chatJson "Hello"), t⟩,
         ⟨"data: [DONE]", none, t⟩]).map Report.tps = some TPS.inf := by
  have hcons : consumeLines initState
      [⟨"data: x", some (chatJson "Hello"), t⟩, ⟨"data: [DONE]", none, t⟩]
      = ⟨some t, some t, [JVal.str "Hello"]⟩ := rfl
  have helap : elapsedOf ⟨some t, some t, [JVal.str "Hello"]⟩ = 0 := by
    show (if t ≠ 0 ∧ t ≠ 0 then t - t else 0) = 0
    rw [if_pos ⟨h3.ne', h3.ne'⟩, sub_self]
  have htps0 : ∀ q : ℚ, tpsOfQ q 0 = TPS.inf := fun q => if_neg (lt_irrefl 0)
  refine ⟨if_pos h1, ?_, ?_, ?_, ?_, ?_⟩
  · rw [h2]; exact htps0 tk
  · intro rep hrep
    simp only [run_streaming] at hrep
    cases hj : joinChunks (consumeLines initState events).chunks with
    | none => rw [hj] at hrep; cases hrep
    | some full =>
      rw [hj] at hrep
      injection hrep with h
      subst h
      rfl
  · intro rep q hrep hq
    obtain ⟨rtk, rel, rtps⟩ := rep
    cases hTok : runNonStreamTokens env data mo with
    | none => simp [run_non_streaming, hTok] at hrep
    | some tv =>
      cases hq' : pyNumQ tv with
      | none => simp [run_non_streaming, hTok, hq', h1] at hrep
      | some q' =>
        simp [run_non_streaming, hTok, hq'] at hrep
        obtain ⟨htk, hel, htp⟩ := hrep
        simp only at hq ⊢
        subst htk
        rw [hq'] at hq
        injection hq with h
        subst h
        rw [← htp]
  · simp only [run_streaming, hcons, helap]
    simp [joinChunks]
  · simp only [run_streaming, hcons, helap]
    simp [joinChunks, htps0]

/-- Witness for C2 at concrete inputs: finite division at elapsed `2`,
infinity at elapsed `0`, the concrete single-fragment stream, and a concrete
non-streaming report. -/
theorem C2_tokens_per_second_witness :
    tpsOfQ 4 2 = TPS.val (4 / 2)
    ∧ tpsOfQ 4 0 = TPS.inf
    ∧ (run_streaming ⟨false, fun _ => none, none⟩ none
        [⟨"data: x", some (chatJson "Hello"), 1⟩,
         ⟨"data: [DONE]", none, 1⟩]).map Report.elapsed = some 0
    ∧ (run_streaming ⟨false, fun _ => none, none⟩ none
        [⟨"data: x", some (chatJson "Hello"), 1⟩,
         ⟨"data: [DONE]", none, 1⟩]).map Report.tps = some TPS.inf
    ∧ (⟨JVal.num ((0 : ℕ) : ℚ), 2, tpsOfQ ((0 : ℕ) : ℚ) 2⟩ : NSReport).tps
        = tpsOfQ ((0 : ℕ) : ℚ) 2 := by
  have h := C2_tokens_per_second ⟨false, fun _ => none, none⟩ none []
    (JVal.obj []) 4 2 0 1 zero_lt_two rfl zero_lt_one
  refine ⟨h.1, h.2.1, h.2.2.2.2.1, h.2.2.2.2.2, ?_⟩
  exact h.2.2.2.1 ⟨JVal.num ((0 : ℕ) : ℚ), 2, tpsOfQ ((0 : ℕ) : ℚ) 2⟩
    ((0 : ℕ) : ℚ) rfl rfl
